import Mathlib

/-!
Shallow embedding of the NFC page read/write core of
`src/electron/nfc-handler.js` (class `ElectronNFCHandler`):
the page-configuration registry, the text codec `bufferToText`,
the probe `testCardCompatibility`, `setPageConfig`, `readPageText`,
`writePageText`, and the session state touched by the card events.
JavaScript strings are modelled as Lean `String`; byte buffers as
`List Nat` of values `< 256`; `String.prototype.trim` is modelled on
the ASCII range (the only characters these buffers can produce).
-/

/-- A page addressing configuration: the `{ pageNumber, byteAddress,
maxDataSize, description }` objects of `this.pageConfigs` and of the
probe's recommendations in `nfc-handler.js`. -/
structure PageConfig where
  pageNumber : Nat
  byteAddress : Nat
  maxDataSize : Nat
  description : String
deriving Repr, DecidableEq

/-- The static registry `this.pageConfigs` (lines 24-55), in insertion
order of its keys. -/
def pageConfigsList : List (String × PageConfig) :=
  [("PAGE_4", ⟨4, 16, 16, "Single Page 4 - 16 bytes simple storage"⟩),
   ("PAGE_5", ⟨5, 20, 16, "Single Page 5 - 16 bytes simple storage"⟩),
   ("PAGE_6", ⟨6, 24, 16, "Single Page 6 - 16 bytes simple storage"⟩),
   ("PAGE_7", ⟨7, 28, 16, "Single Page 7 - 16 bytes simple storage"⟩),
   ("MULTI_PAGE_BLOCK", ⟨4, 16, 64, "Multi-page block read - 64 bytes (4 pages)"⟩)]

/-- Property lookup `this.pageConfigs[configName]`. -/
def lookupConfig (name : String) : Option PageConfig :=
  (pageConfigsList.find? (fun p => p.1 == name)).map (fun p => p.2)

/-- `Object.keys(this.pageConfigs)`. -/
def configNames : List String := pageConfigsList.map (fun p => p.1)

/-- `this.currentPageConfig = this.pageConfigs['PAGE_4']` (line 58). -/
def defaultConfig : PageConfig := ⟨4, 16, 16, "Single Page 4 - 16 bytes simple storage"⟩

/-- The character loop of `bufferToText` (lines 506-517): printable
ASCII bytes are appended, a null byte stops the loop, every other byte
is skipped. -/
def bufferToTextLoop : List Nat → List Char
  | [] => []
  | b :: rest =>
    if 32 ≤ b ∧ b ≤ 126 then Char.ofNat b :: bufferToTextLoop rest
    else if b = 0 then []
    else bufferToTextLoop rest

/-- The ASCII whitespace characters removed by `String.prototype.trim`
(tab, line feed, vertical tab, form feed, carriage return, space). -/
def jsWhitespace (c : Char) : Bool :=
  c == ' ' || c == '\t' || c == '\n' || c == '\r' || c == Char.ofNat 11 || c == Char.ofNat 12

/-- Remove leading and trailing whitespace from a character list. -/
def trimChars (cs : List Char) : List Char :=
  ((cs.dropWhile jsWhitespace).reverse.dropWhile jsWhitespace).reverse

/-- `text.trim()` of JavaScript, on the ASCII range. -/
def jsTrim (s : String) : String := String.mk (trimChars s.data)

/-- `bufferToText(buffer)` (lines 502-524): decode the buffer with the
loop and trim the result. -/
def bufferToText (buffer : List Nat) : String :=
  jsTrim (String.mk (bufferToTextLoop buffer))

/-- UTF-8 encoding of one character, as `Buffer.from(text, 'utf8')`
performs per code point. -/
def utf8Bytes (c : Char) : List Nat :=
  let n := c.toNat
  if n < 128 then [n]
  else if n < 2048 then [192 + n / 64, 128 + n % 64]
  else if n < 65536 then [224 + n / 4096, 128 + n / 64 % 64, 128 + n % 64]
  else [240 + n / 262144, 128 + n / 4096 % 64, 128 + n / 64 % 64, 128 + n % 64]

/-- `Buffer.from(text, 'utf8')` (line 419). -/
def textToBytes (text : String) : List Nat := (text.data.map utf8Bytes).flatten

/-- `Buffer.alloc(size)` followed by `textBuffer.copy(writeBuffer)`
(lines 428-429): the bytes, truncated to `size`, followed by zero
padding up to exactly `size` bytes. -/
def padBuffer (bytes : List Nat) (size : Nat) : List Nat :=
  bytes.take size ++ List.replicate (size - bytes.length) 0

/-- One uppercase hexadecimal digit. -/
def hexDigitUpper (n : Nat) : Char :=
  if n < 10 then Char.ofNat (48 + n) else Char.ofNat (55 + n)

/-- `buffer.toString('hex').toUpperCase()`. -/
def bytesToHexUpper (bs : List Nat) : String :=
  String.mk ((bs.map (fun b => [hexDigitUpper (b / 16 % 16), hexDigitUpper (b % 16)])).flatten)

/-- One call issued to the external reader transport
(`reader.read` / `reader.write`). -/
inductive TransportCall where
  | writeCall (address : Nat) (buffer : List Nat) (length : Nat)
  | readCall (address : Nat) (length : Nat)
deriving Repr, DecidableEq

/-- The transport's responses during one `writePageText` run: the
outcome of the direct write (`none` = accepted, `some msg` = rejected
with that error message), of the single-page fallback write, and of
the verification read. -/
structure TransportBehavior where
  directWrite : Option String
  fallbackWrite : Option String
  readBack : Except String (List Nat)

/-- Failure cases of `readPageText`. -/
inductive ReadError where
  | noCard
  | readFailed (msg : String)
deriving Repr, DecidableEq

/-- The success record returned by `readPageText` (lines 381-389),
without the wall-clock timestamp. -/
structure ReadSuccess where
  text : String
  rawHex : String
  dataSize : Nat
  config : PageConfig
  isEmpty : Bool
deriving Repr, DecidableEq

/-- `readPageText()` (lines 359-398): fail when no reader or card is
present, otherwise read `maxDataSize` bytes at `byteAddress` and
decode them.  Returns the outcome together with the transport calls
performed. -/
def readPageText (hasReader hasCard : Bool) (cfg : PageConfig)
    (readResult : Except String (List Nat)) :
    Except ReadError ReadSuccess × List TransportCall :=
  if !(hasReader && hasCard) then (Except.error ReadError.noCard, [])
  else
    match readResult with
    | Except.ok data =>
        let text := bufferToText data
        (Except.ok ⟨text, bytesToHexUpper data, data.length, cfg, text.length == 0⟩,
         [TransportCall.readCall cfg.byteAddress cfg.maxDataSize])
    | Except.error msg =>
        (Except.error (ReadError.readFailed msg),
         [TransportCall.readCall cfg.byteAddress cfg.maxDataSize])

/-- Failure cases of `writePageText`. -/
inductive WriteError where
  | noCard
  | emptyText
  | payloadTooLarge (max : Nat) (description : String)
  | writeFailed (msg : String)
deriving Repr, DecidableEq

/-- The success record returned by `writePageText` (lines 483-491),
without the message template and the wall-clock timestamp. -/
structure WriteSuccess where
  verified : Bool
  dataSize : Nat
  config : PageConfig
  hexData : String
deriving Repr, DecidableEq

/-- The tail of `writePageText` after a write was accepted (lines
476-491): verify by reading back and comparing trimmed texts; the
returned record is a success regardless of the verification flag. -/
def finishWrite (hasReader hasCard : Bool) (cfg : PageConfig) (text : String)
    (textBufferLen : Nat) (writeBuffer : List Nat) (tb : TransportBehavior)
    (calls : List TransportCall) : Except WriteError WriteSuccess × List TransportCall :=
  let verification := readPageText hasReader hasCard cfg tb.readBack
  let ok := match verification.1 with
    | Except.ok r => jsTrim r.text == jsTrim text
    | Except.error _ => false
  (Except.ok ⟨ok, textBufferLen, cfg, bytesToHexUpper writeBuffer⟩,
   calls ++ verification.2)

/-- `writePageText(text)` (lines 400-500): guard on card presence and
non-blank input, reject oversize payloads before touching the
transport, then try the direct write, then (when `maxDataSize > 4`)
the 4-byte single-page fallback, and verify by read-back when either
write was accepted.  Returns the outcome together with the transport
calls performed. -/
def writePageText (hasReader hasCard : Bool) (cfg : PageConfig) (text : String)
    (tb : TransportBehavior) : Except WriteError WriteSuccess × List TransportCall :=
  if !(hasReader && hasCard) then (Except.error WriteError.noCard, [])
  else if (jsTrim text).length == 0 then (Except.error WriteError.emptyText, [])
  else
    let textBuffer := textToBytes text
    if textBuffer.length > cfg.maxDataSize then
      (Except.error (WriteError.payloadTooLarge cfg.maxDataSize cfg.description), [])
    else
      let writeBuffer := padBuffer textBuffer cfg.maxDataSize
      let directCall := TransportCall.writeCall cfg.byteAddress writeBuffer writeBuffer.length
      match tb.directWrite with
      | none =>
          finishWrite hasReader hasCard cfg text textBuffer.length writeBuffer tb [directCall]
      | some e1 =>
          if 4 < cfg.maxDataSize then
            let fbCall := TransportCall.writeCall cfg.byteAddress (writeBuffer.take 4) 4
            match tb.fallbackWrite with
            | none =>
                finishWrite hasReader hasCard cfg text textBuffer.length writeBuffer tb
                  [directCall, fbCall]
            | some e2 => (Except.error (WriteError.writeFailed e2), [directCall, fbCall])
          else (Except.error (WriteError.writeFailed e1), [directCall])

/-- One probe test case `{ name, address, length }` (lines 146-154). -/
structure TestCase where
  name : String
  address : Nat
  length : Nat
deriving Repr, DecidableEq

/-- The fixed probe battery of `testCardCompatibility`. -/
def testCases : List TestCase :=
  [⟨"PAGE_4_SINGLE", 16, 4⟩,
   ⟨"PAGE_4_EXTENDED", 16, 16⟩,
   ⟨"PAGE_5_SINGLE", 20, 4⟩,
   ⟨"PAGE_6_SINGLE", 24, 4⟩,
   ⟨"PAGE_7_SINGLE", 28, 4⟩,
   ⟨"MULTI_PAGE_BLOCK", 16, 64⟩,
   ⟨"HEADER_READ", 0, 16⟩]

/-- The marker searched for by `testCase.name.includes('PAGE_')`. -/
def pageMarker : List Char := ['P', 'A', 'G', 'E', '_']

/-- `String.prototype.includes('PAGE_')` on a character list. -/
def hasPageMarker : List Char → Bool
  | [] => false
  | c :: rest => pageMarker.isPrefixOf (c :: rest) || hasPageMarker rest

/-- The `results.workingPages` array built by the probe loop (lines
156-182): for each test, in battery order, a succeeding test whose
name contains `PAGE_` pushes `floor(address / 4)`.  `succ` tells which
test names succeed on the attached card. -/
def probeWorkingPages (succ : String → Bool) : List Nat :=
  testCases.foldl
    (fun acc t =>
      if succ t.name && hasPageMarker t.name.data then acc ++ [t.address / 4] else acc)
    []

/-- The recommendation ladder of `testCardCompatibility` (lines
184-217): first match wins among PAGE_4_EXTENDED, PAGE_4_SINGLE,
PAGE_5_SINGLE, MULTI_PAGE_BLOCK; otherwise no recommendation. -/
def selectRecommended (succ : String → Bool) : Option (String × PageConfig) :=
  if succ "PAGE_4_EXTENDED" then
    some ("PAGE_4_EXTENDED", ⟨4, 16, 16, "Page 4 extended mode - 16 bytes"⟩)
  else if succ "PAGE_4_SINGLE" then
    some ("PAGE_4_SINGLE", ⟨4, 16, 4, "Page 4 single mode - 4 bytes"⟩)
  else if succ "PAGE_5_SINGLE" then
    some ("PAGE_5_SINGLE", ⟨5, 20, 4, "Page 5 single mode - 4 bytes"⟩)
  else if succ "MULTI_PAGE_BLOCK" then
    some ("MULTI_PAGE_BLOCK", ⟨4, 16, 64, "Multi-page block mode - 64 bytes"⟩)
  else none

/-- The effect of the probe on `this.currentPageConfig`: installed when
a recommendation is made, left unchanged otherwise. -/
def probeUpdateConfig (succ : String → Bool) (cur : PageConfig) : PageConfig :=
  match selectRecommended succ with
  | some nc => nc.2
  | none => cur

/-- The session fields of the handler that the claims are about:
`this.currentReader`, `this.currentCard` (modelled by presence flags)
and `this.currentPageConfig`. -/
structure SessionState where
  hasReader : Bool
  hasCard : Bool
  currentPageConfig : PageConfig
deriving Repr, DecidableEq

/-- The state right after the constructor (lines 18-58). -/
def initialState : SessionState := ⟨false, false, defaultConfig⟩

/-- The failure record of `setPageConfig` (lines 292-298). -/
structure SetConfigFailure where
  errorMsg : String
  availableConfigs : List String
deriving Repr, DecidableEq

/-- `setPageConfig(configName)` (lines 287-299): install the registry
entry when the name is known, otherwise leave the state unchanged and
report the available names. -/
def setPageConfig (name : String) (s : SessionState) :
    Except SetConfigFailure PageConfig × SessionState :=
  match lookupConfig name with
  | some cfg => (Except.ok cfg, { s with currentPageConfig := cfg })
  | none => (Except.error ⟨"Unknown config: " ++ name, configNames⟩, s)

/-- The session-changing events wired up in `init` and `setupIPC`:
reader attach, card attach (which runs the probe, `succ` telling which
probe tests succeed), card removal (`reader.on('card.off')`, lines
102-108), and an explicit configuration switch. -/
inductive NfcEvent where
  | readerAttach
  | cardAttach (succ : String → Bool)
  | cardRemove
  | setConfig (name : String)

/-- The effect of one event on the session state. -/
def step (e : NfcEvent) (s : SessionState) : SessionState :=
  match e with
  | NfcEvent.readerAttach => { s with hasReader := true }
  | NfcEvent.cardAttach succ =>
      { s with hasCard := true,
               currentPageConfig := probeUpdateConfig succ s.currentPageConfig }
  | NfcEvent.cardRemove => { s with hasCard := false }
  | NfcEvent.setConfig name => (setPageConfig name s).2

/-- Run a sequence of events from a state. -/
def runEvents (es : List NfcEvent) (s : SessionState) : SessionState :=
  es.foldl (fun st e => step e st) s

/-- The `byteAddress = pageNumber × 4` relation of the data model. -/
@[reducible]
def cfgOK (c : PageConfig) : Prop := c.byteAddress = c.pageNumber * 4

/-! ### Helper lemmas about the codec and trimming -/

theorem char_toNat_ofNat_of_le {b : Nat} (h : b ≤ 126) : (Char.ofNat b).toNat = b := by
  have hv : b.isValidChar := Or.inl (by omega)
  rw [Char.ofNat, dif_pos hv]
  rfl

theorem dropWhile_isSuffix (p : α → Bool) : ∀ l : List α, l.dropWhile p <:+ l
  | [] => List.suffix_refl []
  | a :: l => by
    rw [List.dropWhile_cons]
    split
    · exact (dropWhile_isSuffix p l).trans (List.suffix_cons a l)
    · exact List.suffix_refl _

theorem head_dropWhile_unsat (p : α → Bool) :
    ∀ (l : List α) (c : α), (l.dropWhile p).head? = some c → p c = false
  | [], c => by intro h; simp [List.dropWhile] at h
  | a :: l, c => by
    rw [List.dropWhile_cons]
    split
    · exact head_dropWhile_unsat p l c
    · rename_i hpa
      intro h
      simp only [List.head?_cons, Option.some.injEq] at h
      subst h
      simpa using hpa

theorem trimChars_isPrefix_dropWhile (cs : List Char) :
    ∃ t : List Char, trimChars cs ++ t = cs.dropWhile jsWhitespace := by
  obtain ⟨t, ht⟩ :=
    dropWhile_isSuffix jsWhitespace (cs.dropWhile jsWhitespace).reverse
  refine ⟨t.reverse, ?_⟩
  have := congrArg List.reverse ht
  simpa [trimChars] using this

theorem trimChars_head_not_ws (cs : List Char) (c : Char)
    (h : (trimChars cs).head? = some c) : jsWhitespace c = false := by
  obtain ⟨t, ht⟩ := trimChars_isPrefix_dropWhile cs
  apply head_dropWhile_unsat jsWhitespace cs c
  rw [← ht]
  cases htc : trimChars cs with
  | nil => rw [htc] at h; simp at h
  | cons a l =>
      rw [htc] at h
      simp only [List.head?_cons, Option.some.injEq] at h
      subst h
      simp

theorem trimChars_last_not_ws (cs : List Char) (c : Char)
    (h : (trimChars cs).reverse.head? = some c) : jsWhitespace c = false := by
  rw [trimChars, List.reverse_reverse] at h
  exact head_dropWhile_unsat jsWhitespace _ c h

theorem mem_of_mem_trimChars {cs : List Char} {c : Char}
    (h : c ∈ trimChars cs) : c ∈ cs := by
  obtain ⟨t, ht⟩ := trimChars_isPrefix_dropWhile cs
  obtain ⟨t2, ht2⟩ := dropWhile_isSuffix jsWhitespace cs
  have h1 : c ∈ cs.dropWhile jsWhitespace := by
    rw [← ht]; exact List.mem_append_left t h
  rw [← ht2]
  exact List.mem_append_right t2 h1

theorem bufferToTextLoop_append_printable :
    ∀ (B rest : List Nat), (∀ b ∈ B, 32 ≤ b ∧ b ≤ 126) →
      bufferToTextLoop (B ++ rest) = B.map Char.ofNat ++ bufferToTextLoop rest
  | [], _, _ => rfl
  | b :: B, rest, h => by
    have hb := h b (List.mem_cons_self b B)
    simp only [List.cons_append, bufferToTextLoop, if_pos hb, List.map_cons, List.append_eq]
    rw [bufferToTextLoop_append_printable B rest (fun x hx => h x (List.mem_cons_of_mem b hx))]

theorem bufferToTextLoop_replicate_zero (n : Nat) :
    bufferToTextLoop (List.replicate n 0) = [] := by
  cases n with
  | zero => rfl
  | succ n =>
      rw [List.replicate_succ]
      simp only [bufferToTextLoop]
      rw [if_neg (by omega)]
      simp

theorem bufferToTextLoop_characterization : ∀ buffer : List Nat,
    bufferToTextLoop buffer
      = ((buffer.takeWhile (fun b => !(b == 0))).filter
          (fun b => decide (32 ≤ b ∧ b ≤ 126))).map Char.ofNat
  | [] => rfl
  | b :: rest => by
    by_cases hp : 32 ≤ b ∧ b ≤ 126
    · have hb0 : (b == 0) = false := by
        simp only [beq_eq_false_iff_ne, ne_eq]
        omega
      simp only [bufferToTextLoop, if_pos hp, List.takeWhile_cons, hb0, Bool.not_false,
        if_pos trivial, List.filter_cons, decide_eq_true hp, List.map_cons,
        bufferToTextLoop_characterization rest]
    · by_cases hz : b = 0
      · subst hz
        simp only [bufferToTextLoop, if_neg hp, if_pos rfl, List.takeWhile_cons]
        simp
      · have hb0 : (b == 0) = false := by
          simp only [beq_eq_false_iff_ne, ne_eq]
          exact hz
        simp only [bufferToTextLoop, if_neg hp, if_neg hz, List.takeWhile_cons, hb0,
          Bool.not_false, if_pos trivial, List.filter_cons, decide_eq_false hp,
          bufferToTextLoop_characterization rest]
        simp

/-- C3: for every byte sequence B of length at most maxDataSize whose bytes
are all printable ASCII (32-126), decoding the zero-padded maxDataSize
buffer containing B with the codec yields, after trimming, the same string
as B trimmed: the encode, zero-pad, decode round-trip is lossless for
printable payloads with no embedded null bytes. -/
theorem C3_roundtrip_printable (B : List Nat) (maxSize : Nat)
    (hlen : B.length ≤ maxSize) (hp : ∀ b ∈ B, 32 ≤ b ∧ b ≤ 126) :
    bufferToText (padBuffer B maxSize) = jsTrim (String.mk (B.map Char.ofNat)) := by
  unfold bufferToText padBuffer jsTrim
  rw [List.take_of_length_le hlen,
    bufferToTextLoop_append_printable B _ hp, bufferToTextLoop_replicate_zero,
    List.append_nil]

theorem C3_roundtrip_printable_witness :
    ([72, 105] : List Nat).length ≤ 16 ∧
    (∀ b ∈ ([72, 105] : List Nat), 32 ≤ b ∧ b ≤ 126) ∧
    bufferToText (padBuffer [72, 105] 16) = jsTrim (String.mk ([72, 105].map Char.ofNat)) :=
  ⟨by decide, by decide, C3_roundtrip_printable [72, 105] 16 (by decide) (by decide)⟩

/-- C4: for every input buffer, the codec's output contains only characters
whose byte value is in [32,126]; decoding stops at the first 0x00 byte even
if non-printable bytes precede it, non-printable non-null bytes are skipped
without stopping (the loop output is exactly the printable bytes of the
prefix before the first null), and the accumulated text is trimmed of
leading and trailing whitespace before being returned. -/
theorem C4_codec_properties (buffer : List Nat) :
    (∀ c ∈ (bufferToText buffer).data, 32 ≤ c.toNat ∧ c.toNat ≤ 126) ∧
    bufferToTextLoop buffer
      = ((buffer.takeWhile (fun b => !(b == 0))).filter
          (fun b => decide (32 ≤ b ∧ b ≤ 126))).map Char.ofNat ∧
    (bufferToText buffer).data = trimChars (bufferToTextLoop buffer) ∧
    (∀ c, (bufferToText buffer).data.head? = some c → jsWhitespace c = false) ∧
    (∀ c, (bufferToText buffer).data.reverse.head? = some c → jsWhitespace c = false) := by
  have hdata : (bufferToText buffer).data = trimChars (bufferToTextLoop buffer) := rfl
  refine ⟨?_, bufferToTextLoop_characterization buffer, hdata, ?_, ?_⟩
  · intro c hc
    rw [hdata] at hc
    have hmem : c ∈ bufferToTextLoop buffer := mem_of_mem_trimChars hc
    rw [bufferToTextLoop_characterization buffer] at hmem
    obtain ⟨b, hb, rfl⟩ := List.mem_map.mp hmem
    have hpb : 32 ≤ b ∧ b ≤ 126 := of_decide_eq_true (List.mem_filter.mp hb).2
    rw [char_toNat_ofNat_of_le hpb.2]
    exact hpb
  · intro c hc
    rw [hdata] at hc
    exact trimChars_head_not_ws _ c hc
  · intro c hc
    rw [hdata] at hc
    exact trimChars_last_not_ws _ c hc

theorem C4_codec_properties_witness :
    (Char.ofNat 65 ∈ (bufferToText [7, 65, 0, 66]).data) ∧
    (32 ≤ (Char.ofNat 65).toNat ∧ (Char.ofNat 65).toNat ≤ 126) ∧
    bufferToText [7, 65, 0, 66] = "A" :=
  ⟨by decide, (C4_codec_properties [7, 65, 0, 66]).1 (Char.ofNat 65) (by decide), by decide⟩

/-- The padded write buffer that `writePageText` sends to the transport. -/
def writeBufferOf (cfg : PageConfig) (text : String) : List Nat :=
  padBuffer (textToBytes text) cfg.maxDataSize

/-- The verification flag computed after an accepted write: the read-back
succeeded and its trimmed decoded text equals the trimmed input text. -/
def verifyFlag (tb : TransportBehavior) (text : String) : Bool :=
  match tb.readBack with
  | Except.ok data => jsTrim (bufferToText data) == jsTrim text
  | Except.error _ => false

theorem finishWrite_eq (cfg : PageConfig) (text : String) (n : Nat)
    (wb : List Nat) (tb : TransportBehavior) (calls : List TransportCall) :
    finishWrite true true cfg text n wb tb calls
      = (Except.ok ⟨verifyFlag tb text, n, cfg, bytesToHexUpper wb⟩,
         calls ++ [TransportCall.readCall cfg.byteAddress cfg.maxDataSize]) := by
  cases hr : tb.readBack with
  | ok data => simp [finishWrite, readPageText, verifyFlag, hr]
  | error msg => simp [finishWrite, readPageText, verifyFlag, hr]

/-- Full case analysis of `writePageText` past its guards: the value and
transport-call trace it produces in each of the four direct/fallback write
outcome combinations. -/
theorem writePageText_behaviour_cases (cfg : PageConfig) (text : String)
    (tb : TransportBehavior)
    (hne : (jsTrim text).length ≠ 0)
    (hfit : (textToBytes text).length ≤ cfg.maxDataSize) :
    (tb.directWrite = none →
       writePageText true true cfg text tb
         = (Except.ok ⟨verifyFlag tb text, (textToBytes text).length, cfg,
              bytesToHexUpper (writeBufferOf cfg text)⟩,
            [TransportCall.writeCall cfg.byteAddress (writeBufferOf cfg text)
               (writeBufferOf cfg text).length,
             TransportCall.readCall cfg.byteAddress cfg.maxDataSize])) ∧
    (∀ e1, tb.directWrite = some e1 → 4 < cfg.maxDataSize → tb.fallbackWrite = none →
       writePageText true true cfg text tb
         = (Except.ok ⟨verifyFlag tb text, (textToBytes text).length, cfg,
              bytesToHexUpper (writeBufferOf cfg text)⟩,
            [TransportCall.writeCall cfg.byteAddress (writeBufferOf cfg text)
               (writeBufferOf cfg text).length,
             TransportCall.writeCall cfg.byteAddress ((writeBufferOf cfg text).take 4) 4,
             TransportCall.readCall cfg.byteAddress cfg.maxDataSize])) ∧
    (∀ e1 e2, tb.directWrite = some e1 → 4 < cfg.maxDataSize → tb.fallbackWrite = some e2 →
       writePageText true true cfg text tb
         = (Except.error (WriteError.writeFailed e2),
            [TransportCall.writeCall cfg.byteAddress (writeBufferOf cfg text)
               (writeBufferOf cfg text).length,
             TransportCall.writeCall cfg.byteAddress ((writeBufferOf cfg text).take 4) 4])) ∧
    (∀ e1, tb.directWrite = some e1 → cfg.maxDataSize ≤ 4 →
       writePageText true true cfg text tb
         = (Except.error (WriteError.writeFailed e1),
            [TransportCall.writeCall cfg.byteAddress (writeBufferOf cfg text)
               (writeBufferOf cfg text).length])) := by
  have hblank : ¬ (((jsTrim text).length == 0) = true) := by simpa using hne
  have hsize : ¬ ((textToBytes text).length > cfg.maxDataSize) := by omega
  refine ⟨?_, ?_, ?_, ?_⟩
  · intro hd
    unfold writePageText
    rw [if_neg (by simp), if_neg hblank, if_neg hsize, hd]
    exact finishWrite_eq cfg text _ _ tb _
  · intro e1 hd hgt hf
    unfold writePageText
    rw [if_neg (by simp), if_neg hblank, if_neg hsize, hd]
    simp only [if_pos hgt]
    rw [hf]
    exact finishWrite_eq cfg text _ _ tb _
  · intro e1 e2 hd hgt hf
    unfold writePageText
    rw [if_neg (by simp), if_neg hblank, if_neg hsize, hd]
    simp only [if_pos hgt]
    rw [hf]
    rfl
  · intro e1 hd hle
    unfold writePageText
    rw [if_neg (by simp), if_neg hblank, if_neg hsize, hd]
    simp only [if_neg (by omega : ¬ (4 < cfg.maxDataSize))]
    rfl

/-- C1: for every write with a card present, non-blank input and an encoded
byte length within the active configuration's maxDataSize, `writePageText`
first attempts a direct write of the full padded buffer at the active
byteAddress; if that fails and maxDataSize > 4 it attempts a fallback write
of only the first 4 bytes of the padded buffer at the same byteAddress; if
either write is accepted the outcome is a success whose `verified` flag is
true exactly when the read-back succeeds and its trimmed decoded text equals
the trimmed input (the success flag does not depend on the verification
result); if both writes fail the outcome is a failure carrying the last
error message. -/
theorem C1_writePageText_behaviour (cfg : PageConfig) (text : String)
    (tb : TransportBehavior)
    (hne : (jsTrim text).length ≠ 0)
    (hfit : (textToBytes text).length ≤ cfg.maxDataSize) :
    (tb.directWrite = none →
       writePageText true true cfg text tb
         = (Except.ok ⟨verifyFlag tb text, (textToBytes text).length, cfg,
              bytesToHexUpper (writeBufferOf cfg text)⟩,
            [TransportCall.writeCall cfg.byteAddress (writeBufferOf cfg text)
               (writeBufferOf cfg text).length,
             TransportCall.readCall cfg.byteAddress cfg.maxDataSize])) ∧
    (∀ e1, tb.directWrite = some e1 → 4 < cfg.maxDataSize → tb.fallbackWrite = none →
       writePageText true true cfg text tb
         = (Except.ok ⟨verifyFlag tb text, (textToBytes text).length, cfg,
              bytesToHexUpper (writeBufferOf cfg text)⟩,
            [TransportCall.writeCall cfg.byteAddress (writeBufferOf cfg text)
               (writeBufferOf cfg text).length,
             TransportCall.writeCall cfg.byteAddress ((writeBufferOf cfg text).take 4) 4,
             TransportCall.readCall cfg.byteAddress cfg.maxDataSize])) ∧
    (∀ e1 e2, tb.directWrite = some e1 → 4 < cfg.maxDataSize → tb.fallbackWrite = some e2 →
       writePageText true true cfg text tb
         = (Except.error (WriteError.writeFailed e2),
            [TransportCall.writeCall cfg.byteAddress (writeBufferOf cfg text)
               (writeBufferOf cfg text).length,
             TransportCall.writeCall cfg.byteAddress ((writeBufferOf cfg text).take 4) 4])) ∧
    (∀ e1, tb.directWrite = some e1 → cfg.maxDataSize ≤ 4 →
       writePageText true true cfg text tb
         = (Except.error (WriteError.writeFailed e1),
            [TransportCall.writeCall cfg.byteAddress (writeBufferOf cfg text)
               (writeBufferOf cfg text).length])) :=
  writePageText_behaviour_cases cfg text tb hne hfit

theorem C1_writePageText_behaviour_witness :
    (jsTrim "Hi").length ≠ 0 ∧
    (textToBytes "Hi").length ≤ defaultConfig.maxDataSize ∧
    writePageText true true defaultConfig "Hi"
        ⟨none, none, Except.ok (padBuffer (textToBytes "Hi") 16)⟩
      = (Except.ok ⟨true, 2, defaultConfig, "48690000000000000000000000000000"⟩,
         [TransportCall.writeCall 16 (padBuffer (textToBytes "Hi") 16) 16,
          TransportCall.readCall 16 16]) :=
  ⟨by decide, by decide, by
    have h := (C1_writePageText_behaviour defaultConfig "Hi"
      ⟨none, none, Except.ok (padBuffer (textToBytes "Hi") 16)⟩
      (by decide) (by decide)).1 rfl
    exact h.trans rfl⟩

/-- C2: probe selection is a deterministic function of which tests succeed,
following the fixed priority PAGE_4_EXTENDED, PAGE_4_SINGLE, PAGE_5_SINGLE,
MULTI_PAGE_BLOCK; with no match, no recommendation is made and the active
configuration is left unchanged.  In particular PAGE_4_EXTENDED beats
MULTI_PAGE_BLOCK when both succeed. -/
theorem C2_probe_priority (succ : String → Bool) (cur : PageConfig) :
    (succ "PAGE_4_EXTENDED" = true →
       selectRecommended succ
         = some ("PAGE_4_EXTENDED", ⟨4, 16, 16, "Page 4 extended mode - 16 bytes"⟩)) ∧
    (succ "PAGE_4_EXTENDED" = false → succ "PAGE_4_SINGLE" = true →
       selectRecommended succ
         = some ("PAGE_4_SINGLE", ⟨4, 16, 4, "Page 4 single mode - 4 bytes"⟩)) ∧
    (succ "PAGE_4_EXTENDED" = false → succ "PAGE_4_SINGLE" = false →
     succ "PAGE_5_SINGLE" = true →
       selectRecommended succ
         = some ("PAGE_5_SINGLE", ⟨5, 20, 4, "Page 5 single mode - 4 bytes"⟩)) ∧
    (succ "PAGE_4_EXTENDED" = false → succ "PAGE_4_SINGLE" = false →
     succ "PAGE_5_SINGLE" = false → succ "MULTI_PAGE_BLOCK" = true →
       selectRecommended succ
         = some ("MULTI_PAGE_BLOCK", ⟨4, 16, 64, "Multi-page block mode - 64 bytes"⟩)) ∧
    (succ "PAGE_4_EXTENDED" = false → succ "PAGE_4_SINGLE" = false →
     succ "PAGE_5_SINGLE" = false → succ "MULTI_PAGE_BLOCK" = false →
       selectRecommended succ = none ∧ probeUpdateConfig succ cur = cur) := by
  refine ⟨?_, ?_, ?_, ?_, ?_⟩ <;> intros <;>
    simp_all [selectRecommended, probeUpdateConfig]

theorem C2_probe_priority_witness :
    ((fun n => n == "PAGE_4_EXTENDED" || n == "MULTI_PAGE_BLOCK") "PAGE_4_EXTENDED") = true ∧
    selectRecommended (fun n => n == "PAGE_4_EXTENDED" || n == "MULTI_PAGE_BLOCK")
      = some ("PAGE_4_EXTENDED", ⟨4, 16, 16, "Page 4 extended mode - 16 bytes"⟩) :=
  ⟨by decide,
   (C2_probe_priority (fun n => n == "PAGE_4_EXTENDED" || n == "MULTI_PAGE_BLOCK")
      defaultConfig).1 (by decide)⟩

/-- C5: with a card present and non-blank input, when the encoded byte
length exceeds the active configuration's maxDataSize, `writePageText`
returns the payload-too-large failure and performs no transport call. -/
theorem C5_payload_too_large (cfg : PageConfig) (text : String)
    (tb : TransportBehavior)
    (hne : (jsTrim text).length ≠ 0)
    (hbig : cfg.maxDataSize < (textToBytes text).length) :
    writePageText true true cfg text tb
      = (Except.error (WriteError.payloadTooLarge cfg.maxDataSize cfg.description), []) := by
  have hblank : ¬ (((jsTrim text).length == 0) = true) := by simpa using hne
  unfold writePageText
  rw [if_neg (by simp), if_neg hblank, if_pos hbig]

theorem C5_payload_too_large_witness :
    (jsTrim "12345678901234567").length ≠ 0 ∧
    defaultConfig.maxDataSize < (textToBytes "12345678901234567").length ∧
    writePageText true true defaultConfig "12345678901234567"
        ⟨none, none, Except.error ""⟩
      = (Except.error
           (WriteError.payloadTooLarge 16 "Single Page 4 - 16 bytes simple storage"), []) :=
  ⟨by decide, by decide,
   C5_payload_too_large defaultConfig "12345678901234567" ⟨none, none, Except.error ""⟩
     (by decide) (by decide)⟩

theorem foldl_ite_append_eq {α β : Type} (p : α → Bool) (f : α → β) :
    ∀ (l : List α) (start : List β),
      l.foldl (fun acc t => if p t then acc ++ [f t] else acc) start
        = start ++ (l.filter p).map f
  | [], start => by simp
  | a :: l, start => by
    by_cases hp : p a
    · simp [List.foldl_cons, hp, foldl_ite_append_eq p f l (start ++ [f a]), List.filter_cons]
    · simp [List.foldl_cons, hp, foldl_ite_append_eq p f l start, List.filter_cons]

/-- C6 counterexample: when every probe test succeeds, the working-page
array records page 4 three times (PAGE_4_SINGLE, PAGE_4_EXTENDED and
MULTI_PAGE_BLOCK all have byte address 16), so it is not duplicate-free. -/
theorem C6_workingPages_counterexample :
    probeWorkingPages (fun _ => true) = [4, 4, 5, 6, 7, 4] ∧
    ¬ (probeWorkingPages (fun _ => true)).Nodup := by
  constructor
  · decide
  · decide

/-- C6 amended: the working-page collection is a list built in battery
order, with one entry floor(byteAddress / 4) for each succeeding test whose
name contains "PAGE_" (including MULTI_PAGE_BLOCK); a page number appears
once per such test, so it can repeat when succeeding tests share a byte
address. -/
theorem C6_workingPages_characterization (succ : String → Bool) :
    probeWorkingPages succ
      = (testCases.filter (fun t => succ t.name && hasPageMarker t.name.data)).map
          (fun t => t.address / 4) := by
  unfold probeWorkingPages
  rw [foldl_ite_append_eq]
  simp

/-- C7: on every card-removal event the session clears the card — hasCard
becomes false and operations requiring a card fail with the no-card error
without touching the transport — while the reader and the active
configuration are left unchanged. -/
theorem C7_cardRemove_retains_config (s : SessionState) :
    (step NfcEvent.cardRemove s).hasCard = false ∧
    (step NfcEvent.cardRemove s).currentPageConfig = s.currentPageConfig ∧
    (step NfcEvent.cardRemove s).hasReader = s.hasReader ∧
    (∀ (text : String) (tb : TransportBehavior),
       writePageText (step NfcEvent.cardRemove s).hasReader
         (step NfcEvent.cardRemove s).hasCard
         (step NfcEvent.cardRemove s).currentPageConfig text tb
         = (Except.error WriteError.noCard, [])) ∧
    (∀ rr : Except String (List Nat),
       readPageText (step NfcEvent.cardRemove s).hasReader
         (step NfcEvent.cardRemove s).hasCard
         (step NfcEvent.cardRemove s).currentPageConfig rr
         = (Except.error ReadError.noCard, [])) := by
  refine ⟨rfl, rfl, rfl, ?_, ?_⟩
  · intro text tb
    simp [step, writePageText]
  · intro rr
    simp [step, readPageText]

theorem registry_cfgOK : ∀ (name : String) (c : PageConfig),
    lookupConfig name = some c → cfgOK c := by
  intro name c h
  unfold lookupConfig at h
  rw [Option.map_eq_some'] at h
  obtain ⟨p, hf, hp⟩ := h
  have hmem := List.mem_of_find?_eq_some hf
  subst hp
  simp only [pageConfigsList, List.mem_cons, List.not_mem_nil, or_false] at hmem
  rcases hmem with h | h | h | h | h <;> subst h <;> decide

theorem selectRecommended_cfgOK (succ : String → Bool) (name : String) (c : PageConfig)
    (h : selectRecommended succ = some (name, c)) : cfgOK c := by
  unfold selectRecommended at h
  split_ifs at h <;>
    first
      | (simp only [Option.some.injEq, Prod.mk.injEq] at h
         rw [← h.2]
         decide)
      | simp at h

theorem step_preserves_cfgOK (e : NfcEvent) (s : SessionState)
    (h : cfgOK s.currentPageConfig) : cfgOK (step e s).currentPageConfig := by
  cases e with
  | readerAttach => exact h
  | cardAttach succ =>
      show cfgOK (probeUpdateConfig succ s.currentPageConfig)
      unfold probeUpdateConfig
      cases hs : selectRecommended succ with
      | none => exact h
      | some nc => exact selectRecommended_cfgOK succ nc.1 nc.2 (by rw [hs])
  | cardRemove => exact h
  | setConfig name =>
      show cfgOK ((setPageConfig name s).2).currentPageConfig
      unfold setPageConfig
      cases hl : lookupConfig name with
      | none => exact h
      | some cfg => exact registry_cfgOK name cfg hl

/-- C8: the invariant byteAddress = pageNumber × 4 holds for every
configuration the system ever uses as the active one: every registry entry,
the initial default, every configuration a probe recommendation installs,
and the active configuration after any sequence of reader-attach,
card-attach (probe), card-removal and setPageConfig events. -/
theorem C8_byteAddress_invariant (es : List NfcEvent) :
    (∀ (name : String) (c : PageConfig), lookupConfig name = some c → cfgOK c) ∧
    cfgOK initialState.currentPageConfig ∧
    (∀ (succ : String → Bool) (name : String) (c : PageConfig),
       selectRecommended succ = some (name, c) → cfgOK c) ∧
    cfgOK (runEvents es initialState).currentPageConfig := by
  refine ⟨registry_cfgOK, by decide, selectRecommended_cfgOK, ?_⟩
  have hrun : ∀ (l : List NfcEvent) (s : SessionState), cfgOK s.currentPageConfig →
      cfgOK (runEvents l s).currentPageConfig := by
    intro l
    induction l with
    | nil => intro s h; exact h
    | cons e l ih => intro s h; exact ih (step e s) (step_preserves_cfgOK e s h)
  exact hrun es initialState (by decide)

theorem C8_byteAddress_invariant_witness :
    lookupConfig "PAGE_6" = some ⟨6, 24, 16, "Single Page 6 - 16 bytes simple storage"⟩ ∧
    cfgOK (⟨6, 24, 16, "Single Page 6 - 16 bytes simple storage"⟩ : PageConfig) :=
  ⟨by decide,
   (C8_byteAddress_invariant []).1 "PAGE_6"
     ⟨6, 24, 16, "Single Page 6 - 16 bytes simple storage"⟩ (by decide)⟩

/-- C9: if the name is present in the registry, setPageConfig installs the
registry entry of that name as the active configuration and returns it;
if not, the session is left unchanged and the failure reports the full
list of valid configuration names. -/
theorem C9_setPageConfig_spec (name : String) (s : SessionState) :
    (∀ c, lookupConfig name = some c →
       setPageConfig name s = (Except.ok c, { s with currentPageConfig := c })) ∧
    (lookupConfig name = none →
       setPageConfig name s
         = (Except.error ⟨"Unknown config: " ++ name, configNames⟩, s)) ∧
    configNames = ["PAGE_4", "PAGE_5", "PAGE_6", "PAGE_7", "MULTI_PAGE_BLOCK"] := by
  refine ⟨?_, ?_, by decide⟩
  · intro c h
    unfold setPageConfig
    rw [h]
  · intro h
    unfold setPageConfig
    rw [h]

theorem C9_setPageConfig_spec_witness :
    lookupConfig "PAGE_5" = some ⟨5, 20, 16, "Single Page 5 - 16 bytes simple storage"⟩ ∧
    setPageConfig "PAGE_5" initialState
      = (Except.ok ⟨5, 20, 16, "Single Page 5 - 16 bytes simple storage"⟩,
         { initialState with
             currentPageConfig := ⟨5, 20, 16, "Single Page 5 - 16 bytes simple storage"⟩ }) :=
  ⟨by decide,
   (C9_setPageConfig_spec "PAGE_5" initialState).1
     ⟨5, 20, 16, "Single Page 5 - 16 bytes simple storage"⟩ (by decide)⟩

/-- C10 (implicit): every successful writePageText outcome reports hexData
as the hex of the full zero-padded maxDataSize buffer and dataSize as the
unpadded encoded byte length of the input, even when only the 4-byte
single-page fallback write was accepted. -/
theorem C10_success_reports_intended_buffer (cfg : PageConfig) (text : String)
    (tb : TransportBehavior) (rec : WriteSuccess)
    (h : (writePageText true true cfg text tb).1 = Except.ok rec) :
    rec.hexData = bytesToHexUpper (writeBufferOf cfg text) ∧
    rec.dataSize = (textToBytes text).length := by
  by_cases hb : ((jsTrim text).length = 0)
  · have heq : writePageText true true cfg text tb
        = (Except.error WriteError.emptyText, []) := by
      unfold writePageText
      rw [if_neg (by simp), if_pos (by simpa using hb)]
    rw [heq] at h
    simp at h
  · by_cases hs : (textToBytes text).length > cfg.maxDataSize
    · have heq : writePageText true true cfg text tb
          = (Except.error (WriteError.payloadTooLarge cfg.maxDataSize cfg.description),
             []) := by
        unfold writePageText
        rw [if_neg (by simp), if_neg (by simpa using hb), if_pos hs]
      rw [heq] at h
      simp at h
    · have hcases := writePageText_behaviour_cases cfg text tb hb (by omega)
      cases hd : tb.directWrite with
      | none =>
          rw [hcases.1 hd] at h
          simp only [Except.ok.injEq] at h
          rw [← h]
          exact ⟨rfl, rfl⟩
      | some e1 =>
          by_cases hgt : 4 < cfg.maxDataSize
          · cases hf : tb.fallbackWrite with
            | none =>
                rw [hcases.2.1 e1 hd hgt hf] at h
                simp only [Except.ok.injEq] at h
                rw [← h]
                exact ⟨rfl, rfl⟩
            | some e2 =>
                rw [hcases.2.2.1 e1 e2 hd hgt hf] at h
                simp at h
          · rw [hcases.2.2.2 e1 hd (by omega)] at h
            simp at h

theorem C10_success_reports_intended_buffer_witness :
    ((writePageText true true defaultConfig "Hi"
        ⟨some "e1", none, Except.error "nope"⟩).1
      = Except.ok ⟨false, 2, defaultConfig, "48690000000000000000000000000000"⟩) ∧
    (WriteSuccess.mk false 2 defaultConfig "48690000000000000000000000000000").hexData
      = bytesToHexUpper (writeBufferOf defaultConfig "Hi") ∧
    (WriteSuccess.mk false 2 defaultConfig "48690000000000000000000000000000").dataSize
      = (textToBytes "Hi").length :=
  ⟨rfl,
   (C10_success_reports_intended_buffer defaultConfig "Hi"
      ⟨some "e1", none, Except.error "nope"⟩
      ⟨false, 2, defaultConfig, "48690000000000000000000000000000"⟩ rfl).1,
   (C10_success_reports_intended_buffer defaultConfig "Hi"
      ⟨some "e1", none, Except.error "nope"⟩
      ⟨false, 2, defaultConfig, "48690000000000000000000000000000"⟩ rfl).2⟩
